import Mathlib

/-!
Verification of the recommendation engine `recommend_food` from
`streamlit_main.py` (food recommendation app).

The pandas `DataFrame` is embedded as a `List FoodRow`.  The text fields
`Ingredients`, `User type` and `Taste` are `Option String` (`none` models a
missing/NaN cell).  `Calories/Serving` is embedded as `Nat` (the data set and
the spec use positive integers).  Python string operations (`str.split(',')`,
`str.strip()`, `str.lower()`) are embedded as structurally recursive functions
on `List Char` with the same semantics.  `Series.str.contains(pat, na=False)`
is embedded as literal substring containment (its behaviour for patterns that
contain no regex metacharacters; every term in the spec's scenarios is such a
literal), with `na=False` giving `false` on a missing cell.

The tie-break shuffle (`DataFrame.sample(frac=1)`) is non-deterministic; it is
embedded as an explicit function parameter `shuffle`, constrained in the
theorems to be a permutation.  `DataFrame.sort_values` runs with the default
`kind='quicksort'` (numpy introsort), which guarantees only a score-descending
permutation: it is stable only at or below numpy's 16-element insertion-sort
cutoff.  The embedding `sortDesc` is a descending insertion sort, and the
claim theorems use it only through that shared contract (`sortDesc_perm`,
`sortDesc_sorted`) — except the claim-C6 development, which abstracts the sort
out of the pipeline (`recommendScoredSort`) and exhibits an admissible
behaviour of the code's sort (`introSortLike`: stable within the cutoff,
tie-reversing beyond it) under which the spec's stability-below-the-maximum
sentence fails, so that sentence is a bug in the code (the default sort kind),
not a theorem.

The function also mutates its caller's frame: line 26 (`df['Ranking Score'] = 0`)
adds a column to the caller's object in place; with a calorie target, line 30
likewise adds the helper column `Calories/Serving_str_first_digit` before the
filter on line 31 rebinds `df` to a fresh filtered frame.  `SourceState` and
`sourceAfter` record the caller-visible state of the source table after a call.
-/

/-- One row of the food table, with the columns `recommend_food` reads:
`No`, `Ingredients`, `User type`, `Taste`, `Calories/Serving`, `Serving`,
`Calories`.  Text cells are `Option String`; `none` is a missing (NaN) cell. -/
structure FoodRow where
  no : Nat
  ingredients : Option String
  userType : Option String
  taste : Option String
  caloriesPerServing : Nat
  serving : String
  calories : Nat
deriving Repr, DecidableEq

/-- The `negative_prompt` dict: keys `Ingredient`, `User Type`, `Taste`;
a missing key is `none`. -/
structure NegativePrompt where
  ingredient : Option String
  userType : Option String
  taste : Option String
deriving Repr, DecidableEq

/-- The keyword arguments of `recommend_food` other than `df`. -/
structure Criteria where
  caloriesPromptPer100 : Option Nat
  ingredientPrompt : Option String
  userTypePrompt : Option String
  tastePrompt : Option String
  negativePrompt : Option NegativePrompt
  topN : Nat
  desiredCalories : Option Nat
  prioritizeIngredient : Bool
  prioritizeUserType : Bool
  prioritizeTaste : Bool
deriving Repr, DecidableEq

/-- Python `str.lower()` on the character list of a string. -/
def pyLower (l : List Char) : List Char := l.map Char.toLower

/-- Python `str.strip()`: drop leading and trailing whitespace. -/
def pyStrip (l : List Char) : List Char :=
  ((l.dropWhile Char.isWhitespace).reverse.dropWhile Char.isWhitespace).reverse

/-- Python `str.split(',')`: split at every comma, keeping empty pieces
(so `"beef,".split(',') = ["beef", ""]` and `"".split(',') = [""]`). -/
def splitComma : List Char → List (List Char)
  | [] => [[]]
  | c :: rest =>
    if c = ',' then [] :: splitComma rest
    else
      match splitComma rest with
      | [] => [[c]]
      | t :: ts => (c :: t) :: ts

/-- Does `pat` occur at the start of `hay`? -/
def matchAt : List Char → List Char → Bool
  | [], _ => true
  | _ :: _, [] => false
  | a :: as, b :: bs => a == b && matchAt as bs

/-- Does `pat` occur as a contiguous substring of `hay`?  The empty pattern
occurs in every string. -/
def hasSub (pat : List Char) : List Char → Bool
  | [] => pat.isEmpty
  | c :: rest => matchAt pat (c :: rest) || hasSub pat rest

/-- Embeds `series.str.lower().str.contains(pat, na=False)` applied to one
cell: a missing cell never matches (`na=False`), otherwise the already
lower-cased pattern is searched for as a literal substring of the lower-cased
cell text. -/
def seriesContains (field : Option String) (pat : List Char) : Bool :=
  match field with
  | none => false
  | some s => hasSub pat (pyLower s.data)

/-- Embeds `[t.strip().lower() for t in prompt.split(',')]`. -/
def termList (p : String) : List (List Char) :=
  (splitComma p.data).map (fun t => pyLower (pyStrip t))

/-- The score increment of a facet: 2 if the facet's priority flag is set,
else 1 (`score_increment = 2 if prioritize_... else 1`). -/
def scoreInc (pri : Bool) : Nat := if pri then 2 else 1

/-- One facet's contribution to a row's `Ranking Score`, mirroring the Python
loop: skipped when the prompt is `None` or the empty string (falsy), otherwise
one `+= score_increment` per term whose pattern occurs in the field. -/
def facetScore (field : Option String) (prompt : Option String) (pri : Bool) : Nat :=
  match prompt with
  | none => 0
  | some p =>
    if p = "" then 0
    else
      (termList p).foldl (fun acc t => if seriesContains field t then acc + scoreInc pri else acc) 0

/-- The final `Ranking Score` of a row: the three facet contributions.  The
facets act on disjoint columns, so the per-term loops commute and the total is
this sum. -/
def rowScore (c : Criteria) (r : FoodRow) : Nat :=
  facetScore r.ingredients c.ingredientPrompt c.prioritizeIngredient
    + facetScore r.userType c.userTypePrompt c.prioritizeUserType
    + facetScore r.taste c.tastePrompt c.prioritizeTaste

/-- First character of the decimal representation of a natural number; embeds
both `str(int(x)).split('.')[0][0]` (target side) and `astype(str).str[0]`
(row side) for non-negative integer calorie values. -/
def leadDigit (n : Nat) : Char :=
  match (Nat.repr n).data with
  | [] => ' '
  | c :: _ => c

/-- Does a row pass the optional calorie-bucket filter? -/
def passesCalorie (copt : Option Nat) (r : FoodRow) : Bool :=
  match copt with
  | none => true
  | some cal => leadDigit r.caloriesPerServing == leadDigit cal

/-- The calorie-bucket filter (lines 28-32): keep the rows whose
`Calories/Serving` has the same leading digit as the target. -/
def calorieFilter (copt : Option Nat) (rows : List FoodRow) : List FoodRow :=
  match copt with
  | none => rows
  | some cal => rows.filter (fun r => leadDigit r.caloriesPerServing == leadDigit cal)

/-- A row together with its accumulated `Ranking Score` column. -/
structure ScoredRow where
  row : FoodRow
  score : Nat
deriving Repr, DecidableEq

/-- Does the field of a row match some term of an (optional) negative string?
A `None` or empty negative string is falsy and matches nothing. -/
def negMatches (field : Option String) (negOpt : Option String) : Bool :=
  match negOpt with
  | none => false
  | some s => if s = "" then false else (termList s).any (fun t => seriesContains field t)

/-- One facet of the exclusion step: for each negative term, drop the rows
whose field contains it (`df = df[~df[col].str.lower().str.contains(t, na=False)]`). -/
def applyNeg (fieldOf : ScoredRow → Option String) (negOpt : Option String)
    (rows : List ScoredRow) : List ScoredRow :=
  match negOpt with
  | none => rows
  | some s =>
    if s = "" then rows
    else
      (termList s).foldl
        (fun acc t => acc.filter (fun sr => !(seriesContains (fieldOf sr) t))) rows

/-- The exclusion step (lines 55-67): the `Ingredient`, `User Type` and
`Taste` entries of `negative_prompt`, applied in that order. -/
def negExclude (np : Option NegativePrompt) (rows : List ScoredRow) : List ScoredRow :=
  match np with
  | none => rows
  | some n =>
    applyNeg (fun sr => sr.row.taste) n.taste
      (applyNeg (fun sr => sr.row.userType) n.userType
        (applyNeg (fun sr => sr.row.ingredients) n.ingredient rows))

/-- Is a row dropped by the exclusion step? -/
def rowExcluded (np : Option NegativePrompt) (r : FoodRow) : Bool :=
  match np with
  | none => false
  | some n =>
    negMatches r.ingredients n.ingredient || negMatches r.userType n.userType
      || negMatches r.taste n.taste

/-- Stable insertion for the descending sort by `Ranking Score`: a row is
placed before the first row with a not-larger score, so rows with equal scores
keep their input order. -/
def insertDesc (a : ScoredRow) : List ScoredRow → List ScoredRow
  | [] => [a]
  | b :: bs => if b.score ≤ a.score then a :: b :: bs else b :: insertDesc a bs

/-- Embeds `df.sort_values(by='Ranking Score', ascending=False)` as a
descending insertion sort.  The code's default `kind='quicksort'` promises
only a score-descending permutation, so the theorems rely on `sortDesc` only
through `sortDesc_perm` and `sortDesc_sorted`; the stability this embedding
happens to have is nowhere assumed of the program (see `introSortLike`). -/
def sortDesc : List ScoredRow → List ScoredRow
  | [] => []
  | a :: l => insertDesc a (sortDesc l)

/-- Embeds `ranked_df['Ranking Score'].max()`; on the empty table every later
filter is empty whatever this value is, matching pandas' NaN behaviour. -/
def maxScoreOf (l : List ScoredRow) : Nat :=
  l.foldr (fun sr m => max sr.score m) 0

/-- The scored working table after the calorie-bucket filter: each surviving
row paired with its accumulated `Ranking Score`. -/
def scoredTable (c : Criteria) (df : List FoodRow) : List ScoredRow :=
  (calorieFilter c.caloriesPromptPer100 df).map (fun r => ⟨r, rowScore c r⟩)

/-- The rows surviving both the calorie-bucket filter and the exclusion step,
in input order, with their scores. -/
def survivors (c : Criteria) (df : List FoodRow) : List ScoredRow :=
  negExclude c.negativePrompt (scoredTable c df)

/-- Lines 69-81 of `recommend_food`: sort by score descending, shuffle the
maximum-score group, put it first, truncate to `top_n`.  The random
`sample(frac=1)` is the explicit parameter `shuffle`. -/
def recommendScored (shuffle : List ScoredRow → List ScoredRow) (c : Criteria)
    (df : List FoodRow) : List ScoredRow :=
  let ranked := sortDesc (survivors c df)
  let m := maxScoreOf ranked
  let maxGroup := ranked.filter (fun sr => sr.score == m)
  let remaining := ranked.filter (fun sr => !(sr.score == m))
  (shuffle maxGroup ++ remaining).take c.topN

/-- Ceiling division on naturals: for positive `b` this is the ceiling of the
exact quotient, matching `math.ceil(a / b)` on the value ranges at hand. -/
def ceilDivNat (a b : Nat) : Nat := (a + b - 1) / b

/-- A row of the returned table after dropping the `No`, `Serving` and
`Calories` columns, with the optional `Serving Size (grams)` column. -/
structure OutRow where
  ingredients : Option String
  userType : Option String
  taste : Option String
  caloriesPerServing : Nat
  rankingScore : Nat
  servingSize : Option String
deriving Repr, DecidableEq

/-- Projection of a scored row onto the displayed columns, computing
`Serving Size (grams)` as `str(ceil(desired / calories)) + " gram"` when a
desired calorie amount is given (lines 83-84). -/
def toOutRow (dc : Option Nat) (sr : ScoredRow) : OutRow :=
  ⟨sr.row.ingredients, sr.row.userType, sr.row.taste, sr.row.caloriesPerServing, sr.score,
    dc.map (fun d => Nat.repr (ceilDivNat d sr.row.caloriesPerServing) ++ " gram")⟩

/-- The value of `recommend_food(df, ...)`: the ranked, truncated table with
the display columns. -/
def recommend_food (shuffle : List ScoredRow → List ScoredRow) (c : Criteria)
    (df : List FoodRow) : List OutRow :=
  (recommendScored shuffle c df).map (toOutRow c.desiredCalories)

/-- Caller-visible state of the source table: its rows, and the extra columns
a call may have left on it (`Ranking Score`, and the helper first-digit
column). -/
structure SourceState where
  rows : List FoodRow
  scoreCol : Option (List Nat)
  digitCol : Option (List Char)
deriving Repr, DecidableEq

/-- The source table before a call: no extra columns. -/
def initialSource (df : List FoodRow) : SourceState := ⟨df, none, none⟩

/-- Caller-visible state of the source table after `recommend_food(df, ...)`.
Line 26 writes a `Ranking Score` column of zeros into the caller's frame.  If
a calorie target is given, line 30 also writes the helper first-digit column
into the caller's frame, and line 31 then rebinds `df` to a fresh filtered
frame, so the subsequent score updates land on the copy and the caller's
scores stay 0.  Without a calorie target, `df` still aliases the caller's
frame throughout the scoring loops (the first rebinding is the exclusion
step), so the caller's `Ranking Score` column receives the accumulated
scores. -/
def sourceAfter (c : Criteria) (df : List FoodRow) : SourceState :=
  match c.caloriesPromptPer100 with
  | some _ =>
      ⟨df, some (df.map (fun _ => 0)), some (df.map (fun r => leadDigit r.caloriesPerServing))⟩
  | none => ⟨df, some (df.map (fun r => rowScore c r)), none⟩

/-- Facet score as claim C2 words it: the facet's increment times the number
of derived terms that the field contains. -/
def specFacetScore (field : Option String) (prompt : Option String) (pri : Bool) : Nat :=
  match prompt with
  | none => 0
  | some p =>
    if p = "" then 0
    else scoreInc pri * (termList p).countP (fun t => seriesContains field t)

/-- Row score as claim C2 words it: the three facet contributions accumulate
additively with no cap. -/
def specRowScore (c : Criteria) (r : FoodRow) : Nat :=
  specFacetScore r.ingredients c.ingredientPrompt c.prioritizeIngredient
    + specFacetScore r.userType c.userTypePrompt c.prioritizeUserType
    + specFacetScore r.taste c.tastePrompt c.prioritizeTaste

/-! Helper lemmas. -/

theorem hasSub_nil (l : List Char) : hasSub [] l = true := by
  induction l with
  | nil => rfl
  | cons c rest ih => simp [hasSub, matchAt]

theorem seriesContains_some_nil (s : String) : seriesContains (some s) [] = true := by
  simp [seriesContains, hasSub_nil]

theorem foldl_count (field : Option String) (k : Nat) (L : List (List Char)) (n : Nat) :
    L.foldl (fun acc t => if seriesContains field t then acc + k else acc) n
      = n + k * L.countP (fun t => seriesContains field t) := by
  induction L generalizing n with
  | nil => simp
  | cons t L ih =>
    by_cases h : seriesContains field t
    · simp only [List.foldl_cons, if_pos h, ih, List.countP_cons, h, if_pos]
      ring
    · simp only [List.foldl_cons, if_neg h, ih, List.countP_cons, h]
      simp

theorem facetScore_eq_spec (field : Option String) (prompt : Option String) (pri : Bool) :
    facetScore field prompt pri = specFacetScore field prompt pri := by
  cases prompt with
  | none => rfl
  | some p =>
    by_cases hp : p = ""
    · simp [facetScore, specFacetScore, hp]
    · simp [facetScore, specFacetScore, hp, foldl_count]

theorem rowScore_eq_spec (c : Criteria) (r : FoodRow) : rowScore c r = specRowScore c r := by
  simp [rowScore, specRowScore, facetScore_eq_spec]

theorem facetScore_none_field (prompt : Option String) (pri : Bool) :
    facetScore none prompt pri = 0 := by
  rw [facetScore_eq_spec]
  cases prompt with
  | none => rfl
  | some p =>
    by_cases hp : p = ""
    · simp [specFacetScore, hp]
    · simp only [specFacetScore, if_neg hp]
      have : (termList p).countP (fun t => seriesContains none t) = 0 := by
        simp [List.countP_eq_zero, seriesContains]
      simp [this]

theorem negMatches_none_field (negOpt : Option String) : negMatches none negOpt = false := by
  cases negOpt with
  | none => rfl
  | some s =>
    by_cases hs : s = ""
    · simp [negMatches, hs]
    · simp [negMatches, hs, seriesContains]

/-! Lemmas about the stable descending sort. -/

theorem insertDesc_perm (a : ScoredRow) (l : List ScoredRow) :
    (insertDesc a l).Perm (a :: l) := by
  induction l with
  | nil => exact List.Perm.refl _
  | cons b bs ih =>
    by_cases h : b.score ≤ a.score
    · simp [insertDesc, h]
    · simp only [insertDesc, if_neg h]
      exact (ih.cons b).trans (List.Perm.swap a b bs)

theorem sortDesc_perm (l : List ScoredRow) : (sortDesc l).Perm l := by
  induction l with
  | nil => exact List.Perm.refl _
  | cons a t ih => exact (insertDesc_perm a (sortDesc t)).trans (ih.cons a)

/-- The output order the engine guarantees: `Ranking Score` is non-increasing
along the list. -/
def ScoreSorted (l : List ScoredRow) : Prop :=
  l.Pairwise (fun x y => y.score ≤ x.score)

theorem insertDesc_sorted (a : ScoredRow) (l : List ScoredRow) (h : ScoreSorted l) :
    ScoreSorted (insertDesc a l) := by
  induction l with
  | nil => exact List.pairwise_singleton _ _
  | cons b bs ih =>
    rcases h with _ | ⟨hb, hbs⟩
    by_cases hba : b.score ≤ a.score
    · simp only [insertDesc, if_pos hba]
      refine List.Pairwise.cons ?_ (List.Pairwise.cons hb hbs)
      intro x hx
      rcases List.mem_cons.1 hx with rfl | hx
      · exact hba
      · exact le_trans (hb x hx) hba
    · simp only [insertDesc, if_neg hba]
      refine List.Pairwise.cons ?_ (ih hbs)
      intro x hx
      rcases List.mem_cons.1 ((insertDesc_perm a bs).mem_iff.1 hx) with rfl | h1
      · exact le_of_lt (lt_of_not_le hba)
      · exact hb x h1

theorem sortDesc_sorted (l : List ScoredRow) : ScoreSorted (sortDesc l) := by
  induction l with
  | nil => exact List.Pairwise.nil
  | cons a t ih => exact insertDesc_sorted a (sortDesc t) ih

/-! Characterizations of the filtering steps. -/

theorem foldl_filter_eq (q : ScoredRow → List Char → Bool) (terms : List (List Char))
    (rows : List ScoredRow) :
    terms.foldl (fun acc t => acc.filter (fun sr => !(q sr t))) rows
      = rows.filter (fun sr => terms.all (fun t => !(q sr t))) := by
  induction terms generalizing rows with
  | nil => simp
  | cons t ts ih =>
    simp only [List.foldl_cons, ih, List.filter_filter, List.all_cons]
    exact List.filter_congr (fun sr _ => by rw [Bool.and_comm])

theorem not_any_eq_all_not (l : List (List Char)) (p : List Char → Bool) :
    (!(l.any p)) = l.all (fun t => !(p t)) := by
  induction l with
  | nil => rfl
  | cons t ts ih => simp [List.any_cons, List.all_cons, Bool.not_or, ih]

theorem applyNeg_eq (fieldOf : ScoredRow → Option String) (negOpt : Option String)
    (rows : List ScoredRow) :
    applyNeg fieldOf negOpt rows
      = rows.filter (fun sr => !(negMatches (fieldOf sr) negOpt)) := by
  cases negOpt with
  | none => simp [applyNeg, negMatches]
  | some s =>
    by_cases hs : s = ""
    · simp [applyNeg, negMatches, hs]
    · simp only [applyNeg, negMatches, if_neg hs, foldl_filter_eq]
      exact List.filter_congr (fun sr _ => (not_any_eq_all_not _ _).symm)

theorem negExclude_eq (np : Option NegativePrompt) (rows : List ScoredRow) :
    negExclude np rows = rows.filter (fun sr => !(rowExcluded np sr.row)) := by
  cases np with
  | none => simp [negExclude, rowExcluded]
  | some n =>
    simp only [negExclude, applyNeg_eq, List.filter_filter, rowExcluded]
    refine List.filter_congr (fun sr _ => ?_)
    cases negMatches sr.row.ingredients n.ingredient <;>
      cases negMatches sr.row.userType n.userType <;>
        cases negMatches sr.row.taste n.taste <;> rfl

theorem calorieFilter_eq (copt : Option Nat) (df : List FoodRow) :
    calorieFilter copt df = df.filter (passesCalorie copt) := by
  cases copt with
  | none =>
    have h : passesCalorie none = fun _ => true := rfl
    simp [calorieFilter, h]
  | some cal => rfl

theorem survivors_eq (c : Criteria) (df : List FoodRow) :
    survivors c df
      = (df.filter (fun r =>
            passesCalorie c.caloriesPromptPer100 r && !(rowExcluded c.negativePrompt r))).map
          (fun r => ⟨r, rowScore c r⟩) := by
  unfold survivors scoredTable
  rw [negExclude_eq, calorieFilter_eq, List.filter_map, List.filter_filter]
  refine congrArg _ (List.filter_congr (fun r _ => ?_))
  simp [Function.comp, Bool.and_comm]

theorem mem_survivors (c : Criteria) (df : List FoodRow) (sr : ScoredRow) :
    sr ∈ survivors c df
      ↔ ∃ r, r ∈ df ∧ passesCalorie c.caloriesPromptPer100 r = true
          ∧ rowExcluded c.negativePrompt r = false ∧ sr = ⟨r, rowScore c r⟩ := by
  rw [survivors_eq]
  simp only [List.mem_map, List.mem_filter, Bool.and_eq_true, Bool.not_eq_true']
  constructor
  · rintro ⟨r, ⟨hr, hpass, hexc⟩, rfl⟩
    exact ⟨r, hr, hpass, hexc, rfl⟩
  · rintro ⟨r, hr, hpass, hexc, rfl⟩
    exact ⟨r, ⟨hr, hpass, hexc⟩, rfl⟩

theorem mem_recommendScored (shuffle : List ScoredRow → List ScoredRow)
    (hsh : ∀ l, (shuffle l).Perm l) (c : Criteria) (df : List FoodRow) (sr : ScoredRow)
    (h : sr ∈ recommendScored shuffle c df) : sr ∈ survivors c df := by
  unfold recommendScored at h
  have h1 := List.take_subset _ _ h
  rcases List.mem_append.1 h1 with h2 | h2
  · have h3 := (hsh _).mem_iff.1 h2
    have h4 := (List.mem_filter.1 h3).1
    exact (sortDesc_perm _).mem_iff.1 h4
  · have h4 := (List.mem_filter.1 h2).1
    exact (sortDesc_perm _).mem_iff.1 h4

theorem length_recommendScored (shuffle : List ScoredRow → List ScoredRow)
    (hsh : ∀ l, (shuffle l).Perm l) (c : Criteria) (df : List FoodRow) :
    (recommendScored shuffle c df).length = min c.topN (survivors c df).length := by
  unfold recommendScored
  rw [List.length_take, List.length_append, (hsh _).length_eq]
  have hpart := (List.filter_append_perm
      (fun sr => sr.score == maxScoreOf (sortDesc (survivors c df)))
      (sortDesc (survivors c df))).length_eq
  rw [List.length_append] at hpart
  rw [hpart, (sortDesc_perm (survivors c df)).length_eq]

theorem ceilDivNat_eq_ceil (a b : Nat) (hb : 0 < b) :
    (ceilDivNat a b : ℤ) = ⌈(a : ℚ) / (b : ℚ)⌉ := by
  have hq := Nat.div_add_mod (a + b - 1) b
  have hr : (a + b - 1) % b < b := Nat.mod_lt _ hb
  have hq' : ((a + b - 1) / b) * b + (a + b - 1) % b = a + b - 1 := by
    rw [Nat.mul_comm ((a + b - 1) / b) b]
    exact hq
  have h1 : a ≤ ((a + b - 1) / b) * b := by omega
  have h2 : ((a + b - 1) / b) * b < a + b := by omega
  have hb' : (0 : ℚ) < (b : ℚ) := by exact_mod_cast hb
  have h1' : (a : ℚ) ≤ (((a + b - 1) / b : Nat) : ℚ) * (b : ℚ) := by exact_mod_cast h1
  have h2' : (((a + b - 1) / b : Nat) : ℚ) * (b : ℚ) < (a : ℚ) + (b : ℚ) := by exact_mod_cast h2
  rw [eq_comm, Int.ceil_eq_iff]
  unfold ceilDivNat
  constructor
  · rw [lt_div_iff₀ hb', Int.cast_natCast]
    nlinarith [h2']
  · rw [div_le_iff₀ hb', Int.cast_natCast]
    exact h1'

/-! Concrete rows and criteria used in the scenario parts of the claims. -/

/-- Scenario item A: Ingredients `"beef,rice"`. -/
def rowA : FoodRow := ⟨1, some "beef,rice", some "gain", some "rich", 240, "100g", 240⟩

/-- Scenario item B: Ingredients `"chicken"`. -/
def rowB : FoodRow := ⟨2, some "chicken", some "normal", some "sweet", 299, "100g", 299⟩

/-- Scenario item with Ingredients `"pork,rice"`. -/
def rowPork : FoodRow := ⟨3, some "pork,rice", some "athlete", some "salty", 180, "100g", 180⟩

/-- Rows with calories 240, 299, 180, 310 for the calorie-bucket scenario. -/
def row240 : FoodRow := ⟨1, some "beef", some "gain", some "rich", 240, "100g", 240⟩

def row299 : FoodRow := ⟨2, some "chicken", some "normal", some "sweet", 299, "100g", 299⟩

def row180 : FoodRow := ⟨3, some "pork", some "athlete", some "salty", 180, "100g", 180⟩

def row310 : FoodRow := ⟨4, some "fish", some "losing", some "tender", 310, "100g", 310⟩

/-- Criteria with every prompt absent. -/
def cEmpty : Criteria := ⟨none, none, none, none, none, 5, none, false, false, false⟩

/-- Scenario 1 criteria: `ingredient_prompt="beef"`. -/
def cBeef : Criteria := ⟨none, some "beef", none, none, none, 5, none, false, false, false⟩

/-- Scenario 2 criteria: `ingredient_prompt="beef"`, `prioritize_ingredient=True`. -/
def cBeefPri : Criteria := ⟨none, some "beef", none, none, none, 5, none, true, false, false⟩

/-- Scenario 3 criteria: `negative_prompt={"Ingredient": "pork"}`. -/
def cNegPork : Criteria :=
  ⟨none, none, none, none, some ⟨some "pork", none, none⟩, 5, none, false, false, false⟩

/-- Scenario 4 criteria: `desired_calories=500`. -/
def cCal500 : Criteria := ⟨none, none, none, none, none, 5, some 500, false, false, false⟩

/-! Claim theorems. -/

/-- Claim C1, counterexample: with empty criteria and a one-row table the
source table after the call differs from the source table before the call —
the call has added a `Ranking Score` column to the caller's frame, so
`recommend_food` does not leave the input table unchanged. -/
theorem c1_counterexample : sourceAfter cEmpty [rowA] ≠ initialSource [rowA] := by
  decide

/-- Claim C1, amended: `recommend_food` preserves the rows and original
column values of the input table, but mutates it by adding a `Ranking Score`
column, and leaves the helper first-digit column on it exactly when a calorie
target is given. -/
theorem c1_input_table_mutated (c : Criteria) (df : List FoodRow) :
    (sourceAfter c df).rows = df
    ∧ (sourceAfter c df).scoreCol ≠ none
    ∧ ((sourceAfter c df).digitCol = none ↔ c.caloriesPromptPer100 = none) := by
  cases h : c.caloriesPromptPer100 <;> simp [sourceAfter, h]

/-- Claim C2: each include facet splits its string on commas, trims and
lowercases each term, and adds the facet's increment (2 when prioritized,
else 1) to every row whose field contains the term; matches accumulate
additively across terms and facets with no cap.  The per-term loop
(`facetScore`) equals the claim's arithmetic (`specFacetScore`, increment
times number of matching terms); the concrete conjuncts are spec Scenarios 1
and 2. -/
theorem c2_inclusion_scoring :
    (∀ field prompt pri, facetScore field prompt pri = specFacetScore field prompt pri)
    ∧ (∀ c r, rowScore c r = specRowScore c r)
    ∧ rowScore cBeef rowA = 1 ∧ rowScore cBeefPri rowA = 2 ∧ rowScore cBeef rowB = 0 :=
  ⟨facetScore_eq_spec, rowScore_eq_spec, by decide, by decide, by decide⟩

/-- Claim C3: exclusion is absolute — a row matching any negative term is
absent from the ranked output whatever score it accumulated, and exclusion
never changes a surviving row's score (no score penalty). -/
theorem c3_exclusion_absolute (shuffle : List ScoredRow → List ScoredRow)
    (hsh : ∀ l, (shuffle l).Perm l) (c : Criteria) (df : List FoodRow) (r : FoodRow)
    (hex : rowExcluded c.negativePrompt r = true) :
    (∀ sr ∈ recommendScored shuffle c df, sr.row ≠ r)
    ∧ (∀ sr ∈ recommendScored shuffle c df, sr.score = rowScore c sr.row) := by
  constructor
  · intro sr hsr heq
    obtain ⟨r', _, _, hexc, rfl⟩ := (mem_survivors c df sr).1
      (mem_recommendScored shuffle hsh c df sr hsr)
    have hrr : r' = r := heq
    rw [hrr, hex] at hexc
    cases hexc
  · intro sr hsr
    obtain ⟨r', _, _, _, rfl⟩ := (mem_survivors c df sr).1
      (mem_recommendScored shuffle hsh c df sr hsr)
    rfl

/-- Claim C3, witness at spec Scenario 3: `negative_prompt={"Ingredient": "pork"}`
and a row with Ingredients `"pork,rice"`. -/
theorem c3_witness :
    (∀ l : List ScoredRow, (id l).Perm l)
    ∧ rowExcluded cNegPork.negativePrompt rowPork = true
    ∧ ((∀ sr ∈ recommendScored id cNegPork [rowA, rowPork], sr.row ≠ rowPork)
        ∧ (∀ sr ∈ recommendScored id cNegPork [rowA, rowPork],
            sr.score = rowScore cNegPork sr.row)) :=
  ⟨fun l => List.Perm.refl l, by decide,
    c3_exclusion_absolute id (fun l => List.Perm.refl l) cNegPork [rowA, rowPork] rowPork
      (by decide)⟩

/-- Claim C4: with a calorie target the filter keeps exactly the rows whose
`Calories/Serving` has the same leading digit as the target; for target 250
(leading digit `'2'`), 240 and 299 are retained while 180 and 310 are
excluded. -/
theorem c4_calorie_bucket :
    (∀ cal df r, r ∈ calorieFilter (some cal) df
        ↔ r ∈ df ∧ leadDigit r.caloriesPerServing = leadDigit cal)
    ∧ calorieFilter (some 250) [row240, row299, row180, row310] = [row240, row299]
    ∧ leadDigit 250 = '2' := by
  refine ⟨?_, by decide, by decide⟩
  intro cal df r
  simp [calorieFilter, List.mem_filter]

/-- Claim C5: the output has `min top_n (number of surviving rows)` rows —
hence at most `top_n`, and exactly the survivor count, with no error, when
fewer than `top_n` survive; every output row arises from an input row that
passes the calorie-bucket filter and matches no negative term, carrying the
integer score `rowScore`, which is non-negative. -/
theorem c5_output_invariants (shuffle : List ScoredRow → List ScoredRow)
    (hsh : ∀ l, (shuffle l).Perm l) (c : Criteria) (df : List FoodRow) :
    (recommend_food shuffle c df).length = min c.topN (survivors c df).length
    ∧ (∀ o ∈ recommend_food shuffle c df, ∃ r, r ∈ df
        ∧ passesCalorie c.caloriesPromptPer100 r = true
        ∧ rowExcluded c.negativePrompt r = false
        ∧ o = toOutRow c.desiredCalories ⟨r, rowScore c r⟩)
    ∧ (∀ o ∈ recommend_food shuffle c df, 0 ≤ (o.rankingScore : ℤ)) := by
  refine ⟨?_, ?_, ?_⟩
  · unfold recommend_food
    rw [List.length_map]
    exact length_recommendScored shuffle hsh c df
  · intro o ho
    obtain ⟨sr, hsr, rfl⟩ := List.mem_map.1 ho
    obtain ⟨r, hr, hpass, hexc, rfl⟩ := (mem_survivors c df sr).1
      (mem_recommendScored shuffle hsh c df sr hsr)
    exact ⟨r, hr, hpass, hexc, rfl⟩
  · intro o _
    exact Int.natCast_nonneg _

/-- Claim C5, witness at spec Scenario 6: `top_n = 5` with 3 qualifying rows
gives an output of exactly 3 rows. -/
theorem c5_witness :
    (∀ l : List ScoredRow, (id l).Perm l)
    ∧ ((recommend_food id cBeef [rowA, rowB, rowPork]).length
          = min cBeef.topN (survivors cBeef [rowA, rowB, rowPork]).length
      ∧ (∀ o ∈ recommend_food id cBeef [rowA, rowB, rowPork], ∃ r, r ∈ [rowA, rowB, rowPork]
          ∧ passesCalorie cBeef.caloriesPromptPer100 r = true
          ∧ rowExcluded cBeef.negativePrompt r = false
          ∧ o = toOutRow cBeef.desiredCalories ⟨r, rowScore cBeef r⟩)
      ∧ (∀ o ∈ recommend_food id cBeef [rowA, rowB, rowPork], 0 ≤ (o.rankingScore : ℤ)))
    ∧ (recommend_food id cBeef [rowA, rowB, rowPork]).length = 3 :=
  ⟨fun l => List.Perm.refl l,
    c5_output_invariants id (fun l => List.Perm.refl l) cBeef [rowA, rowB, rowPork],
    by decide⟩

/-- Claim C7: when every row is removed by the calorie-bucket and exclusion
filters, `recommend_food` returns the empty table; the max-score computation
and the tie-group shuffle on the empty table are total here, so the empty
result is a value, not an error. -/
theorem c7_empty_result (shuffle : List ScoredRow → List ScoredRow)
    (hsh : ∀ l, (shuffle l).Perm l) (c : Criteria) (df : List FoodRow)
    (h : survivors c df = []) : recommend_food shuffle c df = [] := by
  unfold recommend_food recommendScored
  rw [h]
  have hnil : shuffle [] = [] := (hsh []).eq_nil
  simp [sortDesc, hnil]

/-- Claim C7, witness: the single row `"pork,rice"` is excluded by the
negative ingredient `"pork"`, and the call returns the empty table. -/
theorem c7_witness :
    (∀ l : List ScoredRow, (id l).Perm l)
    ∧ survivors cNegPork [rowPork] = []
    ∧ recommend_food id cNegPork [rowPork] = [] :=
  ⟨fun l => List.Perm.refl l, by decide,
    c7_empty_result id (fun l => List.Perm.refl l) cNegPork [rowPork] (by decide)⟩

/-- The row used in the serving-size scenario: `Calories/Serving` = 220. -/
def row220 : FoodRow := ⟨5, some "tofu", some "normal", some "plain", 220, "100g", 220⟩

/-- Claim C8: with a desired total calorie amount `d`, each output row's
serving size is the string `str(ceil(d / CaloriesPerServing)) + " gram"`;
`ceilDivNat` is the exact rational ceiling for positive `Calories/Serving`,
and `ceil(500/220) = 3`. -/
theorem c8_serving_size (c : Criteria) (sr : ScoredRow) (d : Nat)
    (hd : c.desiredCalories = some d) (hpos : 0 < sr.row.caloriesPerServing) :
    (toOutRow c.desiredCalories sr).servingSize
        = some (Nat.repr (ceilDivNat d sr.row.caloriesPerServing) ++ " gram")
    ∧ (ceilDivNat d sr.row.caloriesPerServing : ℤ)
        = ⌈(d : ℚ) / (sr.row.caloriesPerServing : ℚ)⌉
    ∧ ceilDivNat 500 220 = 3 := by
  refine ⟨?_, ceilDivNat_eq_ceil d _ hpos, by decide⟩
  rw [hd]
  rfl

/-- Claim C8, witness at spec Scenario 4: `desired_calories=500`,
`CaloriesPerServing=220` gives the serving size string `"3 gram"`. -/
theorem c8_witness :
    cCal500.desiredCalories = some 500
    ∧ 0 < (⟨row220, 0⟩ : ScoredRow).row.caloriesPerServing
    ∧ ((toOutRow cCal500.desiredCalories ⟨row220, 0⟩).servingSize
          = some (Nat.repr (ceilDivNat 500 (⟨row220, 0⟩ : ScoredRow).row.caloriesPerServing)
              ++ " gram")
      ∧ (ceilDivNat 500 (⟨row220, 0⟩ : ScoredRow).row.caloriesPerServing : ℤ)
          = ⌈(500 : ℚ) / ((⟨row220, 0⟩ : ScoredRow).row.caloriesPerServing : ℚ)⌉
      ∧ ceilDivNat 500 220 = 3)
    ∧ (toOutRow cCal500.desiredCalories ⟨row220, 0⟩).servingSize = some "3 gram" :=
  ⟨rfl, by decide, c8_serving_size cCal500 ⟨row220, 0⟩ 500 rfl (by decide), by decide⟩

/-- Claim C9: a missing (`None`/NaN) `Ingredients`, `User type` or `Taste`
cell never matches any pattern (`na=False`), contributes 0 to the row's score,
and never causes the row to be dropped by the exclusion step; the embedded
checks are total, so no error is raised on missing values. -/
theorem c9_null_safety :
    (∀ t, seriesContains none t = false)
    ∧ (∀ prompt pri, facetScore none prompt pri = 0)
    ∧ (∀ negOpt, negMatches none negOpt = false)
    ∧ (∀ c no cps sv cl, rowScore c ⟨no, none, none, none, cps, sv, cl⟩ = 0)
    ∧ (∀ np no cps sv cl, rowExcluded np ⟨no, none, none, none, cps, sv, cl⟩ = false) := by
  refine ⟨fun t => rfl, facetScore_none_field, negMatches_none_field, ?_, ?_⟩
  · intro c no cps sv cl
    simp [rowScore, facetScore_none_field]
  · intro np no cps sv cl
    cases np with
    | none => rfl
    | some n => simp [rowExcluded, negMatches_none_field]

/-- Claim C10: a truthy include string whose terms trim to the empty string
(only spaces, or a trailing comma as in `"beef,"`) yields an empty term, and
the empty pattern matches every non-null field, so every such row receives
that facet's increment; only the exactly-empty facet string (or `None`) skips
the facet. -/
theorem c10_empty_term :
    termList " " = [[]]
    ∧ termList "beef," = [['b', 'e', 'e', 'f'], []]
    ∧ (∀ s : String, seriesContains (some s) [] = true)
    ∧ (∀ (s : String) (pri : Bool), facetScore (some s) (some " ") pri = scoreInc pri)
    ∧ (∀ (s : String) (pri : Bool),
        facetScore (some s) (some "beef,") pri
          = (if seriesContains (some s) ['b', 'e', 'e', 'f'] then scoreInc pri else 0)
              + scoreInc pri)
    ∧ (∀ field pri, facetScore field (some "") pri = 0)
    ∧ (∀ field pri, facetScore field none pri = 0) := by
  refine ⟨by decide, by decide, seriesContains_some_nil, ?_, ?_, fun field pri => rfl,
    fun field pri => rfl⟩
  · intro s pri
    have ht : termList " " = [[]] := by decide
    have hne : ¬(" " : String) = "" := by decide
    simp [facetScore, ht, hne, seriesContains_some_nil]
  · intro s pri
    have ht : termList "beef," = [['b', 'e', 'e', 'f'], []] := by decide
    have hne : ¬("beef," : String) = "" := by decide
    by_cases hb : seriesContains (some s) ['b', 'e', 'e', 'f']
    · simp [facetScore, ht, hne, hb, seriesContains_some_nil]
    · simp [facetScore, ht, hne, hb, seriesContains_some_nil]

/-- Anti-stable variant of `insertDesc`: a row is placed before the first row
with a strictly smaller score, so it lands after every row of equal score and
ties end up in reversed input order. -/
def insertDescLate (a : ScoredRow) : List ScoredRow → List ScoredRow
  | [] => [a]
  | b :: bs => if b.score < a.score then a :: b :: bs else b :: insertDescLate a bs

/-- A descending sort that reverses the relative order of equal scores: a
score-descending permutation, like any behaviour of the code's sort, but
maximally unstable on ties. -/
def sortDescRevTies : List ScoredRow → List ScoredRow
  | [] => []
  | a :: l => insertDescLate a (sortDescRevTies l)

/-- One behaviour admitted by `sort_values(by='Ranking Score', ascending=False)`
with the default `kind='quicksort'`: numpy's introsort guarantees a
score-descending permutation, and it degenerates to a stable insertion sort
only for arrays at or below its 16-element cutoff — beyond that its
partitioning may reorder equal keys.  This function realises exactly that
contract: stable up to 16 elements, tie-reversing beyond. -/
def introSortLike (l : List ScoredRow) : List ScoredRow :=
  if l.length ≤ 16 then sortDesc l else sortDescRevTies l

/-- Lines 69-81 of `recommend_food` with the sort abstracted, so the pipeline
can be evaluated under any sort satisfying the contract of the code's
`sort_values` call; `recommendScored` is this pipeline at `sortDesc`. -/
def recommendScoredSort (sortFn shuffle : List ScoredRow → List ScoredRow)
    (c : Criteria) (df : List FoodRow) : List ScoredRow :=
  let ranked := sortFn (survivors c df)
  let m := maxScoreOf ranked
  let maxGroup := ranked.filter (fun sr => sr.score == m)
  let remaining := ranked.filter (fun sr => !(sr.score == m))
  (shuffle maxGroup ++ remaining).take c.topN

/-- A score-0 filler row (under `cBeef`) whose `Ingredients` cell is the row
number. -/
def zeroRow (n : Nat) : FoodRow :=
  ⟨n, some (Nat.repr n), some "x", some "x", 100, "100g", 100⟩

/-- An 18-row table: one `"beef"` row (score 1 under `cBeef`) followed by the
seventeen score-0 rows `zeroRow 2, ..., zeroRow 18` — one more row than
numpy's insertion-sort cutoff, so the code's sort runs its partition phase. -/
def df18 : List FoodRow :=
  ⟨1, some "beef", some "x", some "x", 100, "100g", 100⟩
    :: (List.range 17).map (fun i => zeroRow (i + 2))

theorem insertDescLate_perm (a : ScoredRow) (l : List ScoredRow) :
    (insertDescLate a l).Perm (a :: l) := by
  induction l with
  | nil => exact List.Perm.refl _
  | cons b bs ih =>
    by_cases h : b.score < a.score
    · simp [insertDescLate, h]
    · simp only [insertDescLate, if_neg h]
      exact (ih.cons b).trans (List.Perm.swap a b bs)

theorem sortDescRevTies_perm (l : List ScoredRow) : (sortDescRevTies l).Perm l := by
  induction l with
  | nil => exact List.Perm.refl _
  | cons a t ih => exact (insertDescLate_perm a (sortDescRevTies t)).trans (ih.cons a)

theorem insertDescLate_sorted (a : ScoredRow) (l : List ScoredRow) (h : ScoreSorted l) :
    ScoreSorted (insertDescLate a l) := by
  induction l with
  | nil => exact List.pairwise_singleton _ _
  | cons b bs ih =>
    rcases h with _ | ⟨hb, hbs⟩
    by_cases hba : b.score < a.score
    · simp only [insertDescLate, if_pos hba]
      refine List.Pairwise.cons ?_ (List.Pairwise.cons hb hbs)
      intro x hx
      rcases List.mem_cons.1 hx with rfl | hx
      · exact le_of_lt hba
      · exact le_trans (hb x hx) (le_of_lt hba)
    · simp only [insertDescLate, if_neg hba]
      refine List.Pairwise.cons ?_ (ih hbs)
      intro x hx
      rcases List.mem_cons.1 ((insertDescLate_perm a bs).mem_iff.1 hx) with rfl | h1
      · exact not_lt.1 hba
      · exact hb x h1

theorem sortDescRevTies_sorted (l : List ScoredRow) : ScoreSorted (sortDescRevTies l) := by
  induction l with
  | nil => exact List.Pairwise.nil
  | cons a t ih => exact insertDescLate_sorted a (sortDescRevTies t) ih

theorem introSortLike_perm (l : List ScoredRow) : (introSortLike l).Perm l := by
  unfold introSortLike
  by_cases h : l.length ≤ 16
  · rw [if_pos h]
    exact sortDesc_perm l
  · rw [if_neg h]
    exact sortDescRevTies_perm l

theorem introSortLike_sorted (l : List ScoredRow) : ScoreSorted (introSortLike l) := by
  unfold introSortLike
  by_cases h : l.length ≤ 16
  · rw [if_pos h]
    exact sortDesc_sorted l
  · rw [if_neg h]
    exact sortDescRevTies_sorted l

/-- Claim C6, code-bug demonstration.  The claim's (and spec's) stability
sentence — rows below the maximum score retain their pre-shuffle, input
relative order — is not a property the code guarantees: `sort_values` is
called with the default `kind='quicksort'`, which promises only a
score-descending permutation and is stable only within numpy's 16-element
insertion-sort regime (`kind='stable'` would be needed for the claim).
Conjuncts 1-2: `introSortLike` meets everything the code's sort guarantees
(score-descending permutation); conjunct 3: `recommendScored` is the abstract
pipeline at the stable `sortDesc`; conjunct 4: within the cutoff regime
`introSortLike` coincides with the stable sort, as numpy's does; conjuncts
5-6: on the 18-row `df18` the pipeline under `introSortLike` returns the
score-0 rows below the maximum as 18,17,16,15 while the survivors carry them
in input order 2,...,18; conjunct 7: hence no initial segment of the
survivors in input order equals the output's below-max rows — the claimed
stability fails under an admissible behaviour of the code's sort. -/
theorem c6_unstable_sort_code_bug :
    (∀ l, (introSortLike l).Perm l)
    ∧ (∀ l, ScoreSorted (introSortLike l))
    ∧ (∀ shuffle c df, recommendScored shuffle c df = recommendScoredSort sortDesc shuffle c df)
    ∧ introSortLike (survivors cBeef [rowA, rowB, rowPork])
        = sortDesc (survivors cBeef [rowA, rowB, rowPork])
    ∧ (recommendScoredSort introSortLike id cBeef df18).filter (fun sr => sr.score == 0)
        = [⟨zeroRow 18, 0⟩, ⟨zeroRow 17, 0⟩, ⟨zeroRow 16, 0⟩, ⟨zeroRow 15, 0⟩]
    ∧ (survivors cBeef df18).filter (fun sr => sr.score == 0)
        = (List.range 17).map (fun i => ⟨zeroRow (i + 2), 0⟩)
    ∧ (∀ k, (recommendScoredSort introSortLike id cBeef df18).filter (fun sr => sr.score == 0)
        ≠ ((survivors cBeef df18).filter (fun sr => sr.score == 0)).take k) := by
  refine ⟨introSortLike_perm, introSortLike_sorted, fun shuffle c df => rfl,
    by decide, by decide, by decide, ?_⟩
  intro k h
  have h4 : ((recommendScoredSort introSortLike id cBeef df18).filter
      (fun sr => sr.score == 0)).length = 4 := by decide
  have h17 : ((survivors cBeef df18).filter (fun sr => sr.score == 0)).length = 17 := by
    decide
  have hlen := congrArg List.length h
  rw [List.length_take, h17, h4] at hlen
  have hk : k = 4 := by omega
  subst hk
  revert h
  decide
